import Mathlib

/-!
Shallow embedding of the `extreme` reverse proxy (package `proxy`,
`github.com/davidalecrim/extreme`): the data model (`Config`, `Proxy`),
construction (`New`, including backend validation and connection
pre-warming), round-robin backend selection (`getNextBackend`), request
forwarding (`handleRequest`) and lifecycle teardown (`Shutdown`).

Machine integers are modelled as `Nat` with explicit reduction modulo
`2 ^ 32` where the Go code uses `uint32` (`atomic.AddUint32` on
`currentBackend`, and the `uint32(len(p.backends))` conversion inside
`getNextBackend`).  Go maps are modelled as association lists with
`List.lookup`; a `nil`-map read that leads to a nil-pointer dereference,
and the modulo-by-zero panic of `getNextBackend` on an empty backend
list, are modelled by returning `none`.  The external Go standard
library `net/url.Parse` is a parameter `parse : String → Option URL` of
construction, and the network side of `fasthttp.HostClient.Do` is a
parameter `doFn` of request handling; probe outcomes of the pre-warmer
are a parameter `pf` (backend, probe index ↦ did the probe fail).
Logging is modelled by the list of log events each operation emits.
-/

namespace Extreme

/-- Modulus of Go's `uint32` arithmetic. -/
def UINT32_MOD : Nat := 4294967296

/-- Model of `net/url.URL` restricted to the two fields the proxy reads
(`u.Scheme` and `u.Host`). -/
structure URL where
  scheme : String
  host : String
deriving Repr, DecidableEq, Inhabited

/-- Model of `fasthttp.HostClient` restricted to the fields derived from
the backend URL; the pooling knobs copied from the configuration do not
influence any modelled behaviour. -/
structure HostClient where
  addr : String
  isTLS : Bool
deriving Repr, DecidableEq, Inhabited

/-- Levels of the `log/slog` calls made by the proxy. -/
inductive LogLevel where
  | debug
  | info
  | warn
  | error
deriving Repr, DecidableEq, Inhabited

/-- One structured log call (level and message). -/
structure LogEvent where
  level : LogLevel
  msg : String
deriving Repr, DecidableEq, Inhabited

/-- The configuration fields of `config.Config` that the modelled core
reads: the ordered backend list, the pre-warm toggle and per-backend
probe count, and the logging toggle. -/
structure Config where
  backends : List String
  preWarmEnabled : Bool
  requestsPerBackend : Nat
  loggingEnabled : Bool
deriving Repr, DecidableEq, Inhabited

/-- The `Proxy` struct: ordered backend list, the `clients` and
`backendURLs` maps keyed by the backend string, the atomic round-robin
cursor (`uint32`, initially zero), and the logging toggle read from the
configuration. -/
structure Proxy where
  backends : List String
  clients : List (String × HostClient)
  backendURLs : List (String × URL)
  currentBackend : Nat
  loggingEnabled : Bool
deriving Repr, DecidableEq, Inhabited

/-- A pre-warm probe request as built by `New`: `req.SetHost(u.Host)`,
`req.Header.SetMethod(fasthttp.MethodHead)`, and no body. -/
structure Probe where
  host : String
  method : String
  hasBody : Bool
deriving Repr, DecidableEq, Inhabited

/-- The scheme check of `New`:
`strings.HasPrefix(backend, "http://") || strings.HasPrefix(backend, "https://")`.
`strings.HasPrefix` is stated on the character lists underlying the
strings, so that the check evaluates by kernel reduction. -/
def hasSupportedScheme (b : String) : Bool :=
  List.isPrefixOf "http://".data b.data || List.isPrefixOf "https://".data b.data

/-- The `fasthttp.HostClient` literal built by `New` for one parsed
backend URL: `Addr: u.Host`, `IsTLS: u.Scheme == "https"`. -/
def mkHostClient (u : URL) : HostClient :=
  { addr := u.host, isTLS := u.scheme == "https" }

/-- The probe request the pre-warmer sends for one parsed backend URL:
a HEAD request to `u.Host` with no body. -/
def probeFor (u : URL) : Probe :=
  { host := u.host, method := "HEAD", hasBody := false }

/-- Warn-level log events emitted by the pre-warm goroutines of one
backend: one `failed to pre-warm connection` warning per failing probe.
These warnings are emitted unconditionally, with no `Logging.Enabled`
guard, exactly as in the source.  (The goroutines run concurrently; the
model serialises their logs in probe-index order, which is immaterial to
every property stated below.) -/
def preWarmWarnLogs (pf : Nat → Bool) (K : Nat) : List LogEvent :=
  (List.range K).filterMap fun i =>
    if pf i then some ⟨LogLevel.warn, "failed to pre-warm connection"⟩ else none

/-- The pre-warm phase of `New` for one backend: if `PreWarm.Enabled`,
issue `RequestsPerBackend` HEAD probes through the backend's client and
wait for them all (`wg.Wait()`), logging a warning per failed probe and,
if logging is enabled, one `pre-warmed connections` info event. -/
def preWarmBackend (cfg : Config) (u : URL) (pf : Nat → Bool) :
    List Probe × List LogEvent :=
  if cfg.preWarmEnabled then
    (List.replicate cfg.requestsPerBackend (probeFor u),
     preWarmWarnLogs pf cfg.requestsPerBackend ++
       (if cfg.loggingEnabled then [⟨LogLevel.info, "pre-warmed connections"⟩] else []))
  else ([], [])

/-- Result of a successful `New`: the constructed proxy, every pre-warm
probe issued during construction (in issue order), and the log events
emitted during construction. -/
structure NewResult where
  proxy : Proxy
  probes : List Probe
  logs : List LogEvent
deriving Repr, DecidableEq, Inhabited

/-- Accumulated state of the backend loop of `New`: the `clients` and
`backendURLs` map entries built so far, the probes issued and the log
events emitted. -/
structure LoopAcc where
  clients : List (String × HostClient)
  backendURLs : List (String × URL)
  probes : List Probe
  logs : List LogEvent
deriving Repr, DecidableEq, Inhabited

/-- The `for _, backend := range cfg.Backends` loop of `New`: validate
the scheme, parse the URL (parameter `parse` models `net/url.Parse`),
record the `backendURLs` and `clients` entries, and run the pre-warm
phase.  The first failing backend aborts construction with an error. -/
def newLoop (parse : String → Option URL) (cfg : Config)
    (pf : String → Nat → Bool) : List String → Except String LoopAcc
  | [] => .ok ⟨[], [], [], []⟩
  | b :: rest =>
    if hasSupportedScheme b then
      match parse b with
      | none => .error ("invalid backend URL " ++ b)
      | some u =>
        match newLoop parse cfg pf rest with
        | .error e => .error e
        | .ok acc =>
          .ok ⟨(b, mkHostClient u) :: acc.clients, (b, u) :: acc.backendURLs,
               (preWarmBackend cfg u (pf b)).1 ++ acc.probes,
               (preWarmBackend cfg u (pf b)).2 ++ acc.logs⟩
    else .error ("backend URL must start with http:// or https://: " ++ b)

/-- `proxy.New`: run the validation / client-construction / pre-warm
loop over `cfg.Backends` and assemble the `Proxy` value, whose cursor
starts at the `uint32` zero value.  Note the loop body never runs on an
empty backend list, so construction succeeds in that case. -/
def New (parse : String → Option URL) (cfg : Config)
    (pf : String → Nat → Bool) : Except String NewResult :=
  match newLoop parse cfg pf cfg.backends with
  | .error e => .error e
  | .ok acc =>
    .ok { proxy := { backends := cfg.backends, clients := acc.clients,
                     backendURLs := acc.backendURLs,
                     currentBackend := 0, loggingEnabled := cfg.loggingEnabled },
          probes := acc.probes, logs := acc.logs }

/-- One `atomic.AddUint32(&p.currentBackend, 1)` step: increment modulo
`2 ^ 32`. -/
def nextCursor (c : Nat) : Nat := (c + 1) % UINT32_MOD

/-- `proxy.getNextBackend`: atomically increment the cursor, reduce it
modulo `uint32(len(p.backends))`, and index the backend list.  When the
backend list is empty the divisor is zero and Go panics; the model
returns `none` in that case (and in the degenerate case of a list whose
length is a positive multiple of `2 ^ 32`, where the `uint32` conversion
truncates the length to zero). -/
def getNextBackend (p : Proxy) : Option (String × Proxy) :=
  if h : 0 < p.backends.length % UINT32_MOD then
    some (p.backends.get
            ⟨nextCursor p.currentBackend % (p.backends.length % UINT32_MOD),
             Nat.lt_of_lt_of_le (Nat.mod_lt (nextCursor p.currentBackend) h)
               (Nat.mod_le p.backends.length UINT32_MOD)⟩,
          { p with currentBackend := nextCursor p.currentBackend })
  else none

/-- An inbound HTTP request as the forwarder sees it: method, path,
headers (name-cased as received), body, and destination host. -/
structure Request where
  method : String
  path : String
  headers : List (String × String)
  body : String
  host : String
deriving Repr, DecidableEq, Inhabited

/-- An HTTP response: status code, headers, body. -/
structure Response where
  status : Nat
  headers : List (String × String)
  body : String
deriving Repr, DecidableEq, Inhabited

/-- The synthesized failure response of `handleRequest`:
`ctx.SetStatusCode(fasthttp.StatusBadGateway)` followed by
`ctx.SetBodyString("Gateway Error")`. -/
def gatewayErrorResponse : Response :=
  { status := 502, headers := [], body := "Gateway Error" }

/-- Result of one `handleRequest` invocation: the proxy state after the
cursor advance, the request actually handed to `client.Do` (after
`req.SetHost`), the response written to the inbound connection, and the
log events emitted. -/
structure HandleResult where
  proxy : Proxy
  forwarded : Option Request
  response : Response
  logs : List LogEvent
deriving Repr, DecidableEq, Inhabited

/-- `proxy.handleRequest`: select a backend, look up its client and its
parsed URL, rewrite the request's destination host to the backend URL's
host, and invoke `client.Do` (parameter `doFn`).  On success the
backend's response is the response; on error a 502 with the fixed body
`Gateway Error` is synthesized.  A panic (empty backend list in
`getNextBackend`, or a missing map entry, which in Go yields a nil
pointer dereference at `backendURL.Host` or `client.Do`) is modelled as
`none`. -/
def handleRequest (doFn : HostClient → Request → Except String Response)
    (p : Proxy) (req : Request) : Option HandleResult :=
  match getNextBackend p with
  | none => none
  | some (backend, p') =>
    match p.clients.lookup backend, p.backendURLs.lookup backend with
    | some client, some u =>
      let dbg := if p.loggingEnabled then [⟨LogLevel.debug, "forwarding request"⟩] else []
      let fwd : Request := { req with host := u.host }
      match doFn client fwd with
      | .ok resp =>
        some { proxy := p', forwarded := some fwd, response := resp, logs := dbg }
      | .error _ =>
        some { proxy := p', forwarded := some fwd, response := gatewayErrorResponse,
               logs := dbg ++
                 (if p.loggingEnabled then [⟨LogLevel.error, "error forwarding request"⟩] else []) }
    | _, _ => none

/-- Result of `Shutdown`: whether the listener was stopped, the backends
whose client received a `CloseIdleConnections` call, the log events
emitted, and the returned error. -/
structure ShutdownResult where
  listenerStopped : Bool
  closedClients : List String
  logs : List LogEvent
  err : Option String
deriving Repr, DecidableEq, Inhabited

/-- `proxy.Shutdown`: stop the server (`p.server.Shutdown()`, whose
outcome is the parameter `sErr`), then call `CloseIdleConnections` on
every entry of the `clients` map, and return the server-stop error.
(Go iterates the map in unspecified order; the model uses insertion
order, which is immaterial to the stated properties.) -/
def Shutdown (sErr : Option String) (p : Proxy) : ShutdownResult :=
  { listenerStopped := true
    closedClients := p.clients.map Prod.fst
    logs := (if p.loggingEnabled then [⟨LogLevel.info, "shutting down proxy server"⟩] else []) ++
      p.clients.flatMap fun _ =>
        if p.loggingEnabled then [⟨LogLevel.debug, "closing idle connections for backend"⟩] else []
    err := sErr }

/-- Log events of `proxy.Start` before it enters the accept loop. -/
def StartLogs (p : Proxy) : List LogEvent :=
  if p.loggingEnabled then [⟨LogLevel.info, "starting proxy server"⟩] else []

/-- Iterated backend selection: the list of backends chosen by `n`
consecutive single-threaded `getNextBackend` calls, with the final proxy
state; `none` if any call panics. -/
def selectN : Proxy → Nat → Option (List String × Proxy)
  | p, 0 => some ([], p)
  | p, n + 1 =>
    match getNextBackend p with
    | none => none
    | some (b, p') =>
      match selectN p' n with
      | none => none
      | some (bs, p'') => some (b :: bs, p'')

/-- Cursor value issued by the `n`-th `getNextBackend` call after
construction (the cursor starts at zero and each call applies
`nextCursor`). -/
def cursorAt (n : Nat) : Nat := nextCursor^[n] 0

/-- A concrete instance of the `net/url.Parse` parameter, adequate for
well-formed `http(s)://host/...` strings: it extracts the scheme and the
host (everything up to the first slash after the scheme separator).
Used only to instantiate theorems at concrete inputs. -/
def parseURLSimple (s : String) : Option URL :=
  if List.isPrefixOf "http://".data s.data then
    some { scheme := "http", host := String.mk ((s.data.drop 7).takeWhile (fun c => c ≠ '/')) }
  else if List.isPrefixOf "https://".data s.data then
    some { scheme := "https", host := String.mk ((s.data.drop 8).takeWhile (fun c => c ≠ '/')) }
  else none

/-! Concrete fixtures used to instantiate theorems, witnesses and
counterexamples at explicit inputs. -/

/-- Configuration with three backends in order and no pre-warming. -/
def cfgABC : Config :=
  { backends := ["http://a", "http://b", "http://c"],
    preWarmEnabled := false, requestsPerBackend := 0, loggingEnabled := false }

/-- Configuration with an empty backend list. -/
def cfgEmpty : Config :=
  { backends := [], preWarmEnabled := false, requestsPerBackend := 0, loggingEnabled := false }

/-- Configuration with one backend, pre-warming enabled with one probe
per backend, and logging disabled. -/
def cfgWarm : Config :=
  { backends := ["http://a"], preWarmEnabled := true,
    requestsPerBackend := 1, loggingEnabled := false }

/-- Probe-outcome parameter under which every probe succeeds. -/
def pfNone : String → Nat → Bool := fun _ _ => false

/-- Probe-outcome parameter under which every probe fails. -/
def pfAll : String → Nat → Bool := fun _ _ => true

/-- The construction result for `cfgABC`. -/
def rABC : NewResult := ((New parseURLSimple cfgABC pfNone).toOption).getD default

/-- The proxy state after one selection on `rABC.proxy` (cursor one). -/
def pB : Proxy := { rABC.proxy with currentBackend := 1 }

/-- The construction result for `cfgEmpty`. -/
def rEmpty : NewResult := ((New parseURLSimple cfgEmpty pfNone).toOption).getD default

/-- The construction result for `cfgWarm` when the probe fails. -/
def rWarmFail : NewResult := ((New parseURLSimple cfgWarm pfAll).toOption).getD default

/-- The construction result for `cfgWarm` when the probe succeeds. -/
def rWarmOk : NewResult := ((New parseURLSimple cfgWarm pfNone).toOption).getD default

/-- A backend-forward parameter that always fails. -/
def doFail : HostClient → Request → Except String Response :=
  fun _ _ => .error "connection refused"

/-- A backend-forward parameter that always succeeds with a fixed
response. -/
def doOk : HostClient → Request → Except String Response :=
  fun _ _ => .ok { status := 200, headers := [("X", "y")], body := "hello" }

/-- A concrete inbound request. -/
def reqX : Request :=
  { method := "GET", path := "/ping", headers := [("Accept", "text/plain")],
    body := "", host := "proxy.local" }

/-- The handler result for `reqX` against `rABC.proxy` when the backend
forward fails. -/
def hresFail : HandleResult := (handleRequest doFail rABC.proxy reqX).getD default

/-- The handler result for `reqX` against `rABC.proxy` when the backend
forward succeeds. -/
def hresOk : HandleResult := (handleRequest doOk rABC.proxy reqX).getD default

/-! Helper lemmas. -/

/-- A successful `getNextBackend` call returns a member of the backend
list and advances only the cursor, by one modulo `2 ^ 32`. -/
theorem getNextBackend_some {p : Proxy} {b : String} {p' : Proxy}
    (h : getNextBackend p = some (b, p')) :
    b ∈ p.backends ∧
    p' = { p with currentBackend := nextCursor p.currentBackend } := by
  unfold getNextBackend at h
  split at h
  · cases h
    exact ⟨List.get_mem .., rfl⟩
  · cases h

/-- Characterisation of a successful `handleRequest` run in terms of the
selected backend, its client and its parsed URL. -/
theorem handleRequest_spec {doFn : HostClient → Request → Except String Response}
    {p : Proxy} {req : Request} {res : HandleResult}
    {b : String} {p' : Proxy} {client : HostClient} {u : URL}
    (h : handleRequest doFn p req = some res)
    (h1 : getNextBackend p = some (b, p'))
    (h2 : p.clients.lookup b = some client)
    (h3 : p.backendURLs.lookup b = some u) :
    res.forwarded = some { req with host := u.host } ∧
    res.proxy = p' ∧
    (∀ e, doFn client { req with host := u.host } = .error e →
        res.response = gatewayErrorResponse) ∧
    (∀ resp, doFn client { req with host := u.host } = .ok resp →
        res.response = resp) := by
  unfold handleRequest at h
  simp only [h1] at h
  simp only [h2, h3] at h
  cases hdo : doFn client { req with host := u.host } with
  | ok resp =>
    rw [hdo] at h
    cases Option.some.inj h
    refine ⟨rfl, rfl, ?_, ?_⟩
    · intro e he; cases he
    · intro resp' hr; cases hr; rfl
  | error e =>
    rw [hdo] at h
    cases Option.some.inj h
    refine ⟨rfl, rfl, ?_, ?_⟩
    · intro e' _; rfl
    · intro resp' hr; cases hr

/-- Inversion of one successful iteration of the backend loop. -/
theorem newLoop_cons_ok {parse : String → Option URL} {cfg : Config}
    {pf : String → Nat → Bool} {b : String} {rest : List String} {acc : LoopAcc}
    (h : newLoop parse cfg pf (b :: rest) = .ok acc) :
    ∃ u acc', hasSupportedScheme b = true ∧ parse b = some u ∧
      newLoop parse cfg pf rest = .ok acc' ∧
      acc = ⟨(b, mkHostClient u) :: acc'.clients, (b, u) :: acc'.backendURLs,
             (preWarmBackend cfg u (pf b)).1 ++ acc'.probes,
             (preWarmBackend cfg u (pf b)).2 ++ acc'.logs⟩ := by
  unfold newLoop at h
  split at h
  case isTrue hs =>
    cases hp : parse b with
    | none => rw [hp] at h; cases h
    | some u =>
      rw [hp] at h
      cases hr : newLoop parse cfg pf rest with
      | error e => rw [hr] at h; cases h
      | ok acc' =>
        rw [hr] at h
        exact ⟨u, acc', hs, rfl, rfl, (Except.ok.inj h).symm⟩
  case isFalse => cases h

/-- Every backend processed by a successful backend loop has an entry in
both accumulated maps. -/
theorem newLoop_lookup {parse : String → Option URL} {cfg : Config}
    {pf : String → Nat → Bool} {l : List String} :
    ∀ {acc : LoopAcc}, newLoop parse cfg pf l = .ok acc →
      ∀ b ∈ l, (acc.clients.lookup b).isSome = true ∧
        (acc.backendURLs.lookup b).isSome = true := by
  induction l with
  | nil => intro acc h b hb; simp at hb
  | cons a rest ih =>
    intro acc h b hb
    obtain ⟨u, acc', hs, hp, hr, rfl⟩ := newLoop_cons_ok h
    by_cases hab : b = a
    · subst hab
      constructor <;> simp [List.lookup]
    · have hba : (b == a) = false := beq_eq_false_iff_ne.mpr hab
      have hbr : b ∈ rest := by
        rcases List.mem_cons.mp hb with h' | h'
        · exact absurd h' hab
        · exact h'
      have hih := ih hr b hbr
      constructor <;> simp [List.lookup, hba] <;> simp_all

/-- The backend loop fails exactly when some backend in the list lacks a
supported scheme or fails URL parsing. -/
theorem newLoop_error_iff {parse : String → Option URL} {cfg : Config}
    {pf : String → Nat → Bool} {l : List String} :
    (∃ e, newLoop parse cfg pf l = .error e) ↔
      ∃ b ∈ l, hasSupportedScheme b = false ∨ parse b = none := by
  induction l with
  | nil =>
    constructor
    · intro ⟨e, he⟩; cases he
    · intro ⟨b, hb, _⟩; simp at hb
  | cons a rest ih =>
    constructor
    · intro ⟨e, he⟩
      unfold newLoop at he
      split at he
      case isTrue hs =>
        cases hp : parse a with
        | none => exact ⟨a, List.mem_cons_self a rest, Or.inr hp⟩
        | some u =>
          rw [hp] at he
          cases hr : newLoop parse cfg pf rest with
          | error e' =>
            obtain ⟨b, hb, hbad⟩ := ih.mp ⟨e', hr⟩
            exact ⟨b, List.mem_cons_of_mem a hb, hbad⟩
          | ok acc => rw [hr] at he; cases he
      case isFalse hs =>
        exact ⟨a, List.mem_cons_self a rest,
          Or.inl (Bool.not_eq_true _ ▸ (by simpa using hs))⟩
    · intro ⟨b, hb, hbad⟩
      cases hr : newLoop parse cfg pf (a :: rest) with
      | error e => exact ⟨e, rfl⟩
      | ok acc =>
        exfalso
        obtain ⟨u, acc', hs', hp', hrest, _⟩ := newLoop_cons_ok hr
        rcases List.mem_cons.mp hb with rfl | hbr
        · rcases hbad with h' | h'
          · rw [hs'] at h'; cases h'
          · rw [hp'] at h'; cases h'
        · obtain ⟨e, he⟩ := ih.mpr ⟨b, hbr, hbad⟩
          rw [hrest] at he; cases he

/-- Inversion of a successful `New`: the proxy carries the configured
backend list, the logging flag, a zero cursor, and the maps, probes and
logs accumulated by the backend loop. -/
theorem New_ok_fields {parse : String → Option URL} {cfg : Config}
    {pf : String → Nat → Bool} {r : NewResult}
    (h : New parse cfg pf = .ok r) :
    r.proxy.backends = cfg.backends ∧ r.proxy.loggingEnabled = cfg.loggingEnabled ∧
    r.proxy.currentBackend = 0 ∧
    ∃ acc, newLoop parse cfg pf cfg.backends = .ok acc ∧
      r.proxy.clients = acc.clients ∧ r.proxy.backendURLs = acc.backendURLs ∧
      r.probes = acc.probes ∧ r.logs = acc.logs := by
  unfold New at h
  cases hr : newLoop parse cfg pf cfg.backends with
  | error e => rw [hr] at h; cases h
  | ok acc =>
    rw [hr] at h
    cases Except.ok.inj h
    exact ⟨rfl, rfl, rfl, acc, rfl, rfl, rfl, rfl, rfl⟩

/-- Inversion of a successful `handleRequest` run: a backend was
selected and both map lookups succeeded, and the returned proxy state is
the post-selection state. -/
theorem handleRequest_some_inv {doFn : HostClient → Request → Except String Response}
    {p : Proxy} {req : Request} {res : HandleResult}
    (h : handleRequest doFn p req = some res) :
    ∃ b p' client u, getNextBackend p = some (b, p') ∧
      p.clients.lookup b = some client ∧ p.backendURLs.lookup b = some u ∧
      res.proxy = p' := by
  unfold handleRequest at h
  cases hg : getNextBackend p with
  | none => rw [hg] at h; cases h
  | some bp =>
    obtain ⟨b, p'⟩ := bp
    simp only [hg] at h
    cases hc : p.clients.lookup b with
    | none =>
      cases hu : p.backendURLs.lookup b with
      | none => simp only [hc, hu] at h; cases h
      | some u => simp only [hc, hu] at h; cases h
    | some client =>
      cases hu : p.backendURLs.lookup b with
      | none => simp only [hc, hu] at h; cases h
      | some u =>
        simp only [hc, hu] at h
        cases hdo : doFn client { req with host := u.host } with
        | ok resp =>
          rw [hdo] at h
          cases Option.some.inj h
          exact ⟨b, p', client, u, rfl, hc, hu, rfl⟩
        | error e =>
          rw [hdo] at h
          cases Option.some.inj h
          exact ⟨b, p', client, u, rfl, hc, hu, rfl⟩

/-! Claim theorems. -/

/-- C5: when `Shutdown` returns, the listener has been stopped,
`CloseIdleConnections` has been invoked on every entry of the `clients`
map, and the listener-stop error (if any) is the returned value; every
client's close is attempted regardless of whether the listener stop
erred (the closed set does not depend on `sErr`). -/
theorem shutdown_closes_all_clients (p : Proxy) (sErr : Option String) :
    (Shutdown sErr p).listenerStopped = true ∧
    (Shutdown sErr p).closedClients = p.clients.map Prod.fst ∧
    (Shutdown sErr p).err = sErr := ⟨rfl, rfl, rfl⟩

/-- C2: on a request whose backend forward (`client.Do`) fails, the
response delivered to the caller is the fixed
`502 / "Gateway Error"` response, independent of the backend and the
error; on success the backend's response is passed through as produced,
so the core synthesizes no status other than 502. -/
theorem forward_error_synthesizes_502
    {doFn : HostClient → Request → Except String Response}
    {p : Proxy} {req : Request} {res : HandleResult}
    {b : String} {p' : Proxy} {client : HostClient} {u : URL}
    (h : handleRequest doFn p req = some res)
    (h1 : getNextBackend p = some (b, p'))
    (h2 : p.clients.lookup b = some client)
    (h3 : p.backendURLs.lookup b = some u) :
    (∀ e, doFn client { req with host := u.host } = .error e →
        res.response = gatewayErrorResponse) ∧
    (∀ resp, doFn client { req with host := u.host } = .ok resp →
        res.response = resp) ∧
    gatewayErrorResponse.status = 502 ∧
    gatewayErrorResponse.body = "Gateway Error" :=
  ⟨(handleRequest_spec h h1 h2 h3).2.2.1,
   (handleRequest_spec h h1 h2 h3).2.2.2, rfl, rfl⟩

/-- C2 witness: on the three-backend fixture with an always-failing
forward, the delivered response is the fixed 502. -/
theorem forward_error_synthesizes_502_witness :
    hresFail.response = gatewayErrorResponse ∧ hresFail.response.status = 502 := by
  have h := @forward_error_synthesizes_502 doFail rABC.proxy reqX hresFail
    "http://b" pB ⟨"b", false⟩ ⟨"http", "b"⟩ rfl rfl rfl rfl
  refine ⟨h.1 "connection refused" rfl, ?_⟩
  rw [h.1 "connection refused" rfl]
  rfl

/-- C8: the forwarder hands the backend client the inbound request with
only the destination host rewritten (to the selected backend URL's
host); method, path, headers and body are passed on unmodified. -/
theorem forward_rewrites_only_host
    {doFn : HostClient → Request → Except String Response}
    {p : Proxy} {req : Request} {res : HandleResult}
    {b : String} {p' : Proxy} {client : HostClient} {u : URL}
    (h : handleRequest doFn p req = some res)
    (h1 : getNextBackend p = some (b, p'))
    (h2 : p.clients.lookup b = some client)
    (h3 : p.backendURLs.lookup b = some u) :
    res.forwarded = some { req with host := u.host } :=
  (handleRequest_spec h h1 h2 h3).1

/-- C8 witness: on the three-backend fixture, the forwarded request is
the inbound request with the host rewritten to `b` (the host of the
selected backend `http://b`) and all other fields unchanged. -/
theorem forward_rewrites_only_host_witness :
    hresFail.forwarded = some { reqX with host := "b" } :=
  @forward_rewrites_only_host doFail rABC.proxy reqX hresFail
    "http://b" pB ⟨"b", false⟩ ⟨"http", "b"⟩ rfl rfl rfl rfl

/-- C3 (amended): `New` returns a configuration error and no proxy
instance if and only if the configured backend list contains an address
lacking a supported scheme or an address the URL parser rejects.  An
empty backend list is not rejected: the validation loop never runs, and
construction succeeds. -/
theorem new_error_iff_bad_backend (parse : String → Option URL)
    (cfg : Config) (pf : String → Nat → Bool) :
    (∃ e, New parse cfg pf = .error e) ↔
      ∃ b ∈ cfg.backends, hasSupportedScheme b = false ∨ parse b = none := by
  constructor
  · intro ⟨e, he⟩
    unfold New at he
    cases hr : newLoop parse cfg pf cfg.backends with
    | error e' => exact newLoop_error_iff.mp ⟨e', hr⟩
    | ok acc => rw [hr] at he; cases he
  · intro hbad
    obtain ⟨e, he⟩ := newLoop_error_iff.mpr hbad
    exact ⟨e, by unfold New; rw [he]⟩

/-- C3 counterexample: construction with an empty backend list succeeds
(returns a proxy), contradicting the claim that it fails. -/
theorem new_accepts_empty_backend_list :
    cfgEmpty.backends = [] ∧ New parseURLSimple cfgEmpty pfNone = .ok rEmpty :=
  ⟨rfl, rfl⟩

/-- C4 (amended): for every proxy returned by `New` whose configured
backend list is nonempty (and of realistic size, below `2 ^ 32`, so that
the `uint32` conversion of the length does not truncate to zero),
`getNextBackend` is safe: the modulo divisor is nonzero, the index is in
bounds, and the call returns an element of the configured backend
list. -/
theorem getNextBackend_safe_of_nonempty {parse : String → Option URL}
    {cfg : Config} {pf : String → Nat → Bool} {r : NewResult}
    (h : New parse cfg pf = .ok r) (hne : cfg.backends ≠ [])
    (hlt : cfg.backends.length < UINT32_MOD) :
    ∃ b p', getNextBackend r.proxy = some (b, p') ∧ b ∈ r.proxy.backends := by
  have hb : r.proxy.backends = cfg.backends := (New_ok_fields h).1
  have hpos : 0 < r.proxy.backends.length % UINT32_MOD := by
    rw [hb, Nat.mod_eq_of_lt hlt]
    exact List.length_pos.mpr hne
  unfold getNextBackend
  rw [dif_pos hpos]
  exact ⟨_, _, rfl, List.get_mem ..⟩

/-- C4 witness: on the three-backend fixture the selector succeeds and
returns a configured backend. -/
theorem getNextBackend_safe_of_nonempty_witness :
    getNextBackend rABC.proxy = some ("http://b", pB) ∧
    "http://b" ∈ rABC.proxy.backends := by
  obtain ⟨b, p', h1, h2⟩ := @getNextBackend_safe_of_nonempty parseURLSimple
    cfgABC pfNone rABC rfl (by decide) (by decide)
  have heq : some ("http://b", pB) = some (b, p') := by rw [← h1]; rfl
  cases heq
  exact ⟨h1, h2⟩

/-- C4 counterexample: `New` also returns proxies on which
`getNextBackend` is not safe: with an empty backend list construction
succeeds, yet the selector's modulo divisor is zero (a division-by-zero
panic in Go). -/
theorem getNextBackend_panics_on_empty :
    New parseURLSimple cfgEmpty pfNone = .ok rEmpty ∧
    getNextBackend rEmpty.proxy = none :=
  ⟨rfl, rfl⟩

/-- C10: after construction, the `clients` and `backendURLs` maps
contain an entry for every configured backend string; selection and
request handling never add, remove or replace entries in the maps or the
backend list; and for every request the handler's lookups of the
selected backend's client and parsed URL succeed. -/
theorem maps_cover_backends_and_stay_fixed {parse : String → Option URL}
    {cfg : Config} {pf : String → Nat → Bool} {r : NewResult}
    (h : New parse cfg pf = .ok r) :
    (∀ b ∈ cfg.backends,
        (r.proxy.clients.lookup b).isSome = true ∧
        (r.proxy.backendURLs.lookup b).isSome = true) ∧
    (∀ b p', getNextBackend r.proxy = some (b, p') →
        (r.proxy.clients.lookup b).isSome = true ∧
        (r.proxy.backendURLs.lookup b).isSome = true ∧
        p'.clients = r.proxy.clients ∧ p'.backendURLs = r.proxy.backendURLs ∧
        p'.backends = r.proxy.backends) ∧
    (∀ doFn req res, handleRequest doFn r.proxy req = some res →
        res.proxy.clients = r.proxy.clients ∧
        res.proxy.backendURLs = r.proxy.backendURLs ∧
        res.proxy.backends = r.proxy.backends) := by
  obtain ⟨hb, _, _, acc, hloop, hcl, hurls, _, _⟩ := New_ok_fields h
  have hcov : ∀ b ∈ cfg.backends,
      (r.proxy.clients.lookup b).isSome = true ∧
      (r.proxy.backendURLs.lookup b).isSome = true := by
    intro b hb'
    rw [hcl, hurls]
    exact newLoop_lookup hloop b hb'
  refine ⟨hcov, ?_, ?_⟩
  · intro b p' hg
    obtain ⟨hmem, hp'⟩ := getNextBackend_some hg
    have hc := hcov b (hb ▸ hmem)
    subst hp'
    exact ⟨hc.1, hc.2, rfl, rfl, rfl⟩
  · intro doFn req res hh
    obtain ⟨b, p', client, u, hg, _, _, hres⟩ := handleRequest_some_inv hh
    obtain ⟨_, hp'⟩ := getNextBackend_some hg
    rw [hres, hp']
    exact ⟨rfl, rfl, rfl⟩

/-- C10 witness: on the three-backend fixture both maps have entries for
a configured backend, and a handled request leaves the maps and the
backend list unchanged. -/
theorem maps_cover_backends_and_stay_fixed_witness :
    (rABC.proxy.clients.lookup "http://a").isSome = true ∧
    (rABC.proxy.backendURLs.lookup "http://a").isSome = true ∧
    hresOk.proxy.clients = rABC.proxy.clients ∧
    hresOk.proxy.backendURLs = rABC.proxy.backendURLs ∧
    hresOk.proxy.backends = rABC.proxy.backends := by
  have h := @maps_cover_backends_and_stay_fixed parseURLSimple cfgABC pfNone rABC rfl
  have h1 := h.1 "http://a" (by decide)
  have h2 := h.2.2 doOk reqX hresOk rfl
  exact ⟨h1.1, h1.2, h2.1, h2.2.1, h2.2.2⟩

/-- One successful iteration of the backend loop, forward direction. -/
theorem newLoop_cons_eq {parse : String → Option URL} {cfg : Config}
    {pf : String → Nat → Bool} {b : String} {rest : List String} {u : URL}
    {acc' : LoopAcc} (hs : hasSupportedScheme b = true) (hp : parse b = some u)
    (hr : newLoop parse cfg pf rest = .ok acc') :
    newLoop parse cfg pf (b :: rest) =
      .ok ⟨(b, mkHostClient u) :: acc'.clients, (b, u) :: acc'.backendURLs,
           (preWarmBackend cfg u (pf b)).1 ++ acc'.probes,
           (preWarmBackend cfg u (pf b)).2 ++ acc'.logs⟩ := by
  unfold newLoop
  rw [if_pos hs]
  simp only [hp, hr]

/-- Probes of a successful backend loop with pre-warming enabled:
exactly `requestsPerBackend` probes per processed backend, grouped in
list order. -/
theorem newLoop_probes {parse : String → Option URL} {cfg : Config}
    {pf : String → Nat → Bool} (hw : cfg.preWarmEnabled = true)
    {l : List String} :
    ∀ {acc : LoopAcc}, newLoop parse cfg pf l = .ok acc →
      acc.probes = l.flatMap fun b =>
        match parse b with
        | some u => List.replicate cfg.requestsPerBackend (probeFor u)
        | none => [] := by
  induction l with
  | nil => intro acc h; cases Except.ok.inj h; rfl
  | cons a rest ih =>
    intro acc h
    obtain ⟨u, acc', _, hp, hr, rfl⟩ := newLoop_cons_ok h
    show (preWarmBackend cfg u (pf a)).1 ++ acc'.probes = _
    rw [List.flatMap_cons, hp, ih hr]
    simp [preWarmBackend, hw]

/-- Probe outcomes influence neither success of the backend loop nor the
accumulated maps and probes (only the emitted logs). -/
theorem newLoop_pf_indep {parse : String → Option URL} {cfg : Config}
    (pf pf' : String → Nat → Bool) {l : List String} :
    ∀ {acc : LoopAcc}, newLoop parse cfg pf l = .ok acc →
      ∃ acc', newLoop parse cfg pf' l = .ok acc' ∧
        acc'.clients = acc.clients ∧ acc'.backendURLs = acc.backendURLs ∧
        acc'.probes = acc.probes := by
  induction l with
  | nil =>
    intro acc h; cases Except.ok.inj h
    exact ⟨⟨[], [], [], []⟩, rfl, rfl, rfl, rfl⟩
  | cons a rest ih =>
    intro acc h
    obtain ⟨u, acc', hs, hp, hr, rfl⟩ := newLoop_cons_ok h
    obtain ⟨acc'', hr', hc, hu', hpr⟩ := ih hr
    refine ⟨⟨(a, mkHostClient u) :: acc''.clients, (a, u) :: acc''.backendURLs,
             (preWarmBackend cfg u (pf' a)).1 ++ acc''.probes,
             (preWarmBackend cfg u (pf' a)).2 ++ acc''.logs⟩,
      newLoop_cons_eq hs hp hr', ?_, ?_, ?_⟩
    · simp [hc]
    · simp [hu']
    · show (preWarmBackend cfg u (pf' a)).1 ++ acc''.probes =
        (preWarmBackend cfg u (pf a)).1 ++ acc'.probes
      rw [hpr]
      cases hwb : cfg.preWarmEnabled <;> simp [preWarmBackend, hwb]

/-- With logging disabled and no failing probe, the backend loop emits
no log events. -/
theorem newLoop_logs_nil {parse : String → Option URL} {cfg : Config}
    {pf : String → Nat → Bool} (hlog : cfg.loggingEnabled = false)
    (hpf : ∀ b i, pf b i = false) {l : List String} :
    ∀ {acc : LoopAcc}, newLoop parse cfg pf l = .ok acc → acc.logs = [] := by
  induction l with
  | nil => intro acc h; cases Except.ok.inj h; rfl
  | cons a rest ih =>
    intro acc h
    obtain ⟨u, acc', _, _, hr, rfl⟩ := newLoop_cons_ok h
    show (preWarmBackend cfg u (pf a)).2 ++ acc'.logs = []
    rw [ih hr]
    cases hwb : cfg.preWarmEnabled <;>
      simp [preWarmBackend, preWarmWarnLogs, hlog, hpf, hwb]

/-- With logging disabled, a successful `handleRequest` run emits no log
events. -/
theorem handleRequest_logs_nil {doFn : HostClient → Request → Except String Response}
    {p : Proxy} {req : Request} {res : HandleResult}
    (hl : p.loggingEnabled = false)
    (h : handleRequest doFn p req = some res) : res.logs = [] := by
  unfold handleRequest at h
  cases hg : getNextBackend p with
  | none => rw [hg] at h; cases h
  | some bp =>
    obtain ⟨b, p'⟩ := bp
    simp only [hg] at h
    cases hc : p.clients.lookup b with
    | none =>
      cases hu : p.backendURLs.lookup b with
      | none => simp only [hc, hu] at h; cases h
      | some u => simp only [hc, hu] at h; cases h
    | some client =>
      cases hu : p.backendURLs.lookup b with
      | none => simp only [hc, hu] at h; cases h
      | some u =>
        simp only [hc, hu] at h
        cases hdo : doFn client { req with host := u.host } with
        | ok resp => rw [hdo] at h; cases Option.some.inj h; simp [hl]
        | error e => rw [hdo] at h; cases Option.some.inj h; simp [hl]

/-- The cursor value issued by the `n`-th call is `n` modulo `2 ^ 32`. -/
theorem cursorAt_eq (n : Nat) : cursorAt n = n % UINT32_MOD := by
  induction n with
  | zero => rfl
  | succ n ih =>
    rw [cursorAt, Function.iterate_succ_apply', ← cursorAt, ih]
    unfold nextCursor UINT32_MOD
    omega

/-- C6: with pre-warming enabled and `requestsPerBackend = K`,
construction issues exactly `K` HEAD probes with no body per configured
backend, addressed to that backend's host, all issued before `New`
returns (and hence before `Start` can accept); and probe outcomes affect
neither success of construction, nor the constructed proxy (so no
backend becomes ineligible for selection), nor the probes issued. -/
theorem prewarm_issues_K_probes_per_backend {parse : String → Option URL}
    {cfg : Config} {pf : String → Nat → Bool} {r : NewResult}
    (h : New parse cfg pf = .ok r) (hw : cfg.preWarmEnabled = true) :
    r.probes = (cfg.backends.flatMap fun b =>
      match parse b with
      | some u => List.replicate cfg.requestsPerBackend (probeFor u)
      | none => []) ∧
    (∀ pr ∈ r.probes, pr.method = "HEAD" ∧ pr.hasBody = false) ∧
    (∀ pf', ∃ r', New parse cfg pf' = .ok r' ∧ r'.proxy = r.proxy ∧
        r'.probes = r.probes) := by
  obtain ⟨hb, hlogf, hcur, acc, hloop, hcl, hurls, hprobes, hlogs⟩ := New_ok_fields h
  refine ⟨?_, ?_, ?_⟩
  · rw [hprobes]; exact newLoop_probes hw hloop
  · intro pr hpr
    rw [hprobes, newLoop_probes hw hloop] at hpr
    obtain ⟨b, _, hprb⟩ := List.mem_flatMap.mp hpr
    cases hp : parse b with
    | none => rw [hp] at hprb; cases hprb
    | some u =>
      rw [hp] at hprb
      rw [List.eq_of_mem_replicate hprb]
      exact ⟨rfl, rfl⟩
  · intro pf'
    obtain ⟨acc', hloop', hc, hu', hpr⟩ := newLoop_pf_indep pf pf' hloop
    refine ⟨{ proxy := { backends := cfg.backends, clients := acc'.clients,
                         backendURLs := acc'.backendURLs,
                         currentBackend := 0, loggingEnabled := cfg.loggingEnabled },
              probes := acc'.probes, logs := acc'.logs }, ?_, ?_, ?_⟩
    · unfold New; rw [hloop']
    · show Proxy.mk cfg.backends acc'.clients acc'.backendURLs 0 cfg.loggingEnabled = r.proxy
      rw [hc, hu', ← hb, ← hlogf, ← hcur, ← hcl, ← hurls]
    · exact hpr.trans hprobes.symm

/-- C6 witness: on the single-backend pre-warm fixture with one probe
per backend, construction issues exactly one HEAD probe to host `a`. -/
theorem prewarm_issues_K_probes_witness :
    rWarmFail.probes = [probeFor ⟨"http", "a"⟩] := by
  have h := @prewarm_issues_K_probes_per_backend parseURLSimple cfgWarm pfAll
    rWarmFail rfl rfl
  rw [h.1]
  rfl

/-- C7 (amended): with the logging flag false, every logging call of the
core is suppressed except the pre-warm probe-failure warning, which is
unconditional: if additionally no pre-warm probe fails, construction,
start, shutdown and request handling emit no log events at all. -/
theorem logging_disabled_silent_when_no_probe_fails
    {parse : String → Option URL} {cfg : Config} {pf : String → Nat → Bool}
    {r : NewResult}
    (h : New parse cfg pf = .ok r) (hlog : cfg.loggingEnabled = false)
    (hpf : ∀ b i, pf b i = false) :
    r.logs = [] ∧ StartLogs r.proxy = [] ∧
    (∀ sErr, (Shutdown sErr r.proxy).logs = []) ∧
    (∀ doFn req res, handleRequest doFn r.proxy req = some res →
        res.logs = []) := by
  obtain ⟨_, hlogf, _, acc, hloop, _, _, _, hlogs⟩ := New_ok_fields h
  have hple : r.proxy.loggingEnabled = false := hlogf.trans hlog
  refine ⟨?_, ?_, ?_, ?_⟩
  · rw [hlogs]; exact newLoop_logs_nil hlog hpf hloop
  · simp [StartLogs, hple]
  · intro sErr; simp [Shutdown, hple]
  · intro doFn req res hh
    exact handleRequest_logs_nil hple hh

/-- C7 witness: on the pre-warm fixture with logging disabled and a
succeeding probe, construction, start and shutdown emit no log
events. -/
theorem logging_disabled_silent_witness :
    rWarmOk.logs = [] ∧ StartLogs rWarmOk.proxy = [] ∧
    (Shutdown none rWarmOk.proxy).logs = [] := by
  have h := @logging_disabled_silent_when_no_probe_fails parseURLSimple cfgWarm
    pfNone rWarmOk rfl rfl (fun _ _ => rfl)
  exact ⟨h.1, h.2.1, h.2.2.1 none⟩

/-- C7 counterexample: with logging disabled but pre-warming enabled and
a failing probe, construction still makes a warn-level logging call, so
the core does log with the logging-enabled flag false. -/
theorem prewarm_failure_logged_despite_logging_disabled :
    cfgWarm.loggingEnabled = false ∧
    New parseURLSimple cfgWarm pfAll = .ok rWarmFail ∧
    rWarmFail.logs = [⟨LogLevel.warn, "failed to pre-warm connection"⟩] :=
  ⟨rfl, rfl, rfl⟩

/-- C9 (amended): the selector cursor is an unsigned 32-bit counter:
each `getNextBackend` call sets it to the previous value plus one,
reduced modulo `2 ^ 32`.  It is strictly increasing while no overflow
occurs, but wraps to zero from `2 ^ 32 - 1`; apart from this overflow
wrap it is never reset. -/
theorem selector_cursor_increments_mod_2_32 {p : Proxy} {b : String}
    {p' : Proxy} (h : getNextBackend p = some (b, p')) :
    p'.currentBackend = (p.currentBackend + 1) % UINT32_MOD ∧
    (p.currentBackend + 1 < UINT32_MOD →
      p'.currentBackend = p.currentBackend + 1) ∧
    (p.currentBackend = UINT32_MOD - 1 → p'.currentBackend = 0) := by
  rw [(getNextBackend_some h).2]
  refine ⟨rfl, ?_, ?_⟩
  · intro hlt
    show nextCursor p.currentBackend = _
    unfold nextCursor
    exact Nat.mod_eq_of_lt hlt
  · intro heq
    show nextCursor p.currentBackend = 0
    unfold nextCursor UINT32_MOD at *
    omega

/-- C9 witness: the first selection on the three-backend fixture
advances the cursor from zero to one. -/
theorem selector_cursor_increments_witness :
    pB.currentBackend = (rABC.proxy.currentBackend + 1) % UINT32_MOD ∧
    pB.currentBackend = rABC.proxy.currentBackend + 1 := by
  have h := @selector_cursor_increments_mod_2_32 rABC.proxy "http://b" pB rfl
  exact ⟨h.1, h.2.1 (by decide)⟩

/-- C9 counterexample: the cursor value issued by call number `2 ^ 32`
(counting from construction) is `0`, which is not greater than the value
`1` issued by call number `1`: the `uint32` counter wraps on overflow,
so it is not strictly greater than every previously issued value. -/
theorem selector_cursor_wraps_at_2_32 :
    cursorAt (2 ^ 32) = 0 ∧ cursorAt 1 = 1 ∧
    ¬ cursorAt 1 < cursorAt (2 ^ 32) := by
  have h1 : cursorAt (2 ^ 32) = 0 := by
    rw [cursorAt_eq]; unfold UINT32_MOD; norm_num
  have h2 : cursorAt 1 = 1 := by
    rw [cursorAt_eq]; unfold UINT32_MOD; norm_num
  refine ⟨h1, h2, ?_⟩
  rw [h1, h2]
  omega

/-- On a realistically sized backend list, one `getNextBackend` call
selects the backend at index `cursor + 1` modulo the length. -/
theorem getNextBackend_eq_getD {p : Proxy} (h1 : 0 < p.backends.length)
    (h2 : p.backends.length < UINT32_MOD) :
    getNextBackend p =
      some (p.backends.getD (nextCursor p.currentBackend % p.backends.length) "",
        { p with currentBackend := nextCursor p.currentBackend }) := by
  have hmod : p.backends.length % UINT32_MOD = p.backends.length :=
    Nat.mod_eq_of_lt h2
  have hlt : nextCursor p.currentBackend % p.backends.length < p.backends.length :=
    Nat.mod_lt _ h1
  unfold getNextBackend
  rw [dif_pos (hmod.symm ▸ h1)]
  refine congrArg some (Prod.ext ?_ rfl)
  show p.backends.get _ = _
  rw [List.getD_eq_get _ _ hlt]
  congr 1
  apply Fin.ext
  show nextCursor p.currentBackend % (p.backends.length % UINT32_MOD) =
    nextCursor p.currentBackend % p.backends.length
  rw [hmod]

/-- Iterated selection without cursor wrap: starting from cursor `c`
with `c + k < 2 ^ 32` on a backend list of positive length below
`2 ^ 32`, `k` consecutive selections succeed, visiting the indices
`(c + 1) % N, …, (c + k) % N` in order and leaving the cursor at
`c + k`. -/
theorem selectN_no_wrap {k : Nat} :
    ∀ {p : Proxy}, 0 < p.backends.length → p.backends.length < UINT32_MOD →
      p.currentBackend + k < UINT32_MOD →
      selectN p k = some ((List.range k).map
          (fun i => p.backends.getD ((p.currentBackend + 1 + i) % p.backends.length) ""),
        { p with currentBackend := p.currentBackend + k }) := by
  induction k with
  | zero => intro p _ _ _; rfl
  | succ k ih =>
    intro p h1 h2 h3
    have hc1 : nextCursor p.currentBackend = p.currentBackend + 1 := by
      unfold nextCursor
      exact Nat.mod_eq_of_lt (by omega)
    have hstep := getNextBackend_eq_getD h1 h2
    rw [hc1] at hstep
    have hrec := ih (p := { p with currentBackend := p.currentBackend + 1 })
      h1 h2 (by simp only; omega)
    rw [selectN]
    simp only [hstep, hrec]
    refine congrArg some ?_
    refine Prod.ext ?_ ?_
    · show p.backends.getD ((p.currentBackend + 1) % p.backends.length) "" ::
        (List.range k).map
          (fun i => p.backends.getD ((p.currentBackend + 1 + 1 + i) % p.backends.length) "") =
        (List.range (k + 1)).map
          (fun i => p.backends.getD ((p.currentBackend + 1 + i) % p.backends.length) "")
      rw [List.range_succ_eq_map, List.map_cons, List.map_map]
      congr 1
      refine List.map_congr_left ?_
      intro i _
      show p.backends.getD ((p.currentBackend + 1 + 1 + i) % p.backends.length) "" =
        p.backends.getD ((p.currentBackend + 1 + (i + 1)) % p.backends.length) ""
      congr 2
      omega
    · show ({ p with currentBackend := p.currentBackend + 1 + k } : Proxy) =
        { p with currentBackend := p.currentBackend + (k + 1) }
      have hc : p.currentBackend + 1 + k = p.currentBackend + (k + 1) := by omega
      rw [hc]

/-- The first-window selection list equals the backend list rotated left
by one. -/
theorem range_map_getD_eq_rotate {B : List String} (h : 0 < B.length) :
    (List.range B.length).map (fun i => B.getD ((0 + 1 + i) % B.length) "") =
      B.rotate 1 := by
  apply List.ext_getElem
  · simp
  · intro n h1 h2
    simp only [List.getElem_map, List.getElem_range]
    have hn : 0 + 1 + n = n + 1 := by omega
    rw [hn, List.getD_eq_getElem _ _ (Nat.mod_lt _ h), List.getElem_rotate]

/-- C1 (amended): for every proxy returned by `New` on `N ≥ 1` backends
(of realistic size, `N < 2 ^ 32`), the `N` consecutive single-threaded
`getNextBackend` calls following construction visit each configured
backend exactly once, in configuration order starting from index `1` —
the call after the last-used index, the cursor's initial value `0`
corresponding to index `0`.  The selection sequence is the backend list
rotated left by one (hence a permutation of it); in particular, with
three backends A, B, C configured in that order, the first five
sequential selections are B, C, A, B, C — not A, B, C, A, B. -/
theorem roundRobin_first_window_rotates {parse : String → Option URL}
    {cfg : Config} {pf : String → Nat → Bool} {r : NewResult}
    (h : New parse cfg pf = .ok r) (hne : cfg.backends ≠ [])
    (hlt : cfg.backends.length < UINT32_MOD) :
    (selectN r.proxy cfg.backends.length).map Prod.fst =
      some (cfg.backends.rotate 1) ∧
    (cfg.backends.rotate 1).Perm cfg.backends := by
  obtain ⟨hbk, hlg, hcur, acc, hloop, hcl, hurls, _, _⟩ := New_ok_fields h
  have hpos : 0 < cfg.backends.length := List.length_pos.mpr hne
  have hproxy : r.proxy =
      Proxy.mk cfg.backends acc.clients acc.backendURLs 0 cfg.loggingEnabled := by
    rw [← hbk, ← hcl, ← hurls, ← hcur, ← hlg]
  have hsel := @selectN_no_wrap cfg.backends.length
    (Proxy.mk cfg.backends acc.clients acc.backendURLs 0 cfg.loggingEnabled)
    hpos hlt (by simpa using hlt)
  rw [hproxy, hsel]
  refine ⟨?_, List.rotate_perm cfg.backends 1⟩
  show some ((List.range cfg.backends.length).map
      (fun i => cfg.backends.getD ((0 + 1 + i) % cfg.backends.length) "")) =
    some (cfg.backends.rotate 1)
  exact congrArg some (range_map_getD_eq_rotate hpos)

/-- C1 witness: on the three-backend fixture, the first three selections
are the backend list rotated left by one — B, C, A. -/
theorem roundRobin_first_window_rotates_witness :
    (selectN rABC.proxy cfgABC.backends.length).map Prod.fst =
      some (cfgABC.backends.rotate 1) ∧
    cfgABC.backends.rotate 1 = ["http://b", "http://c", "http://a"] := by
  have h := @roundRobin_first_window_rotates parseURLSimple cfgABC pfNone rABC
    rfl (by decide) (by decide)
  exact ⟨h.1, by decide⟩

/-- C1 counterexample: with backends `http://a`, `http://b`, `http://c`
configured in that order, the first five sequential single-threaded
selections after construction are B, C, A, B, C — not A, B, C, A, B as
the claim's example states, because the cursor is incremented before
indexing, so the first selection is index `1`, not index `0`. -/
theorem first_five_selections_start_at_second_backend :
    (selectN rABC.proxy 5).map Prod.fst =
      some ["http://b", "http://c", "http://a", "http://b", "http://c"] ∧
    some ["http://b", "http://c", "http://a", "http://b", "http://c"] ≠
      (some ["http://a", "http://b", "http://c", "http://a", "http://b"] :
        Option (List String)) :=
  ⟨by decide, by decide⟩

end Extreme
